import Mathlib

/-!
# Verification of the role-chaining discovery tool

Shallow embedding of `src/roleChaining.py`. The policy-evaluation and
chain-discovery core is translated function by function:

* `get_role_permission` — the trust-policy evaluator (lines 53-61): walks the
  statements of a trust-policy document, and for each `Allow` statement with a
  `Principal` field reads `Principal.get("AWS", [])`, normalises a bare string
  to a one-element list, and tests membership of the caller ARN.  When the
  `Principal` value is not a dict (for example the bare string `"*"`), the
  Python attribute access `.get` raises; the embedding returns `.error ()`.
* `policy_allows_assume_role` — the permission-policy evaluator (lines
  108-112): true when some statement has `Effect == "Allow"` and
  `"sts:AssumeRole" in statement.get("Action", [])` holds under Python `in`
  semantics (substring test on a string value, exact membership on a list).
* `get_permisive_roles` (lines 30-44): filters the role universe by the trust
  evaluator.  External pagination is modelled by handing the function the full
  role list.
* `check_policies` (lines 86-96): a flag-setting loop over the policy
  list that never exits early; `check_policies_reported` records the policies
  it reports as granting.
* `role_chaning_check` (lines 63-84): iterates the permissive roles and, at
  the FIRST role whose inline-or-managed policy check succeeds, calls the
  assume-role collaborator and returns its result unconditionally.  The
  external STS call is modelled by a function parameter
  `assume : RoleDescriptor → Option String` (`none` = AssumeDenied).
  `attempted_assume_roles` records which roles the loop actually attempts.

Policy documents are modelled as the JSON-ish dictionaries the code reads:
every field read with `.get(k, default)` becomes an `Option` (absent = `none`),
the `Principal` dict becomes an association list, and a value that may be a
string or a list of strings becomes `StrOrList`.
-/

/-- A JSON value that the code expects to be either a single string or a list
of strings (the `Principal.AWS` and `Action` fields). -/
inductive StrOrList where
  | str (s : String)
  | list (l : List String)
deriving DecidableEq, Repr

/-- The value of the `Principal` field of a statement: either a JSON object
(association list from key to value, e.g. `AWS`, `Service`, `Federated`) or a
bare non-dict value such as the string `"*"`. -/
inductive PrincipalVal where
  | map (entries : List (String × StrOrList))
  | bare (s : String)
deriving DecidableEq, Repr

/-- A policy statement, holding exactly the fields the code reads.  Every
field is optional because the code accesses them with `.get`/`in` checks. -/
structure Stmt where
  Effect : Option String
  Principal : Option PrincipalVal
  Action : Option StrOrList
deriving DecidableEq, Repr

/-- A policy document: `doc.get("Statement", [])` reads the optional
`Statement` field, absent meaning the empty list. -/
structure PolicyDocument where
  Statement : Option (List Stmt)
deriving DecidableEq, Repr

/-- `strStartsAux n h` is true when the character list `n` is a prefix of `h`. -/
def strStartsAux : List Char → List Char → Bool
  | [], _ => true
  | _ :: _, [] => false
  | a :: as, b :: bs => a == b && strStartsAux as bs

/-- `strSubAux n h` is true when `n` occurs contiguously inside `h`. -/
def strSubAux (needle : List Char) : List Char → Bool
  | [] => strStartsAux needle []
  | b :: bs => strStartsAux needle (b :: bs) || strSubAux needle bs

/-- The Python test `needle in hay` on strings: contiguous-substring test. -/
def containsSubstr (needle hay : String) : Bool :=
  strSubAux needle.toList hay.toList

/-- The Python test `"sts:AssumeRole" in statement.get("Action", [])`:
membership in the empty list when the field is absent, substring test when the
value is a string, exact element membership when it is a list. -/
def py_in_action : Option StrOrList → Bool
  | none => false
  | some (.str s) => containsSubstr "sts:AssumeRole" s
  | some (.list l) => l.contains "sts:AssumeRole"

/-- `policy_allows_assume_role` (roleChaining.py lines 108-112): some
statement has `Effect == "Allow"` and its `Action` passes the Python `in`
test for `"sts:AssumeRole"`. -/
def policy_allows_assume_role (doc : PolicyDocument) : Bool :=
  (doc.Statement.getD []).any fun st =>
    st.Effect == some "Allow" && py_in_action st.Action

/-- `principal_arns = statement["Principal"].get("AWS", [])` followed by the
`isinstance(str)` normalisation (lines 56-58): absent key gives the empty
list, a bare string becomes a one-element list. -/
def normalizeAws : Option StrOrList → List String
  | none => []
  | some (.str s) => [s]
  | some (.list l) => l

/-- The statement loop of `get_role_permission` (lines 54-61).  A statement is
examined only when `Effect == "Allow"` and `Principal` is present; the
attribute access `["Principal"].get("AWS", [])` raises (here `.error ()`) when
the principal value is not a dict. -/
def get_role_permission_go (userArn : String) : List Stmt → Except Unit Bool
  | [] => .ok false
  | st :: rest =>
    match st.Effect, st.Principal with
    | some e, some p =>
      if e = "Allow" then
        match p with
        | .map entries =>
          if (normalizeAws (entries.lookup "AWS")).contains userArn then .ok true
          else get_role_permission_go userArn rest
        | .bare _ => .error ()
      else get_role_permission_go userArn rest
    | _, _ => get_role_permission_go userArn rest

/-- `get_role_permission` (lines 53-61): the trust-policy evaluator. -/
def get_role_permission (doc : PolicyDocument) (userArn : String) : Except Unit Bool :=
  get_role_permission_go userArn (doc.Statement.getD [])

/-- A role as the discovery pipeline sees it: the fields taken from
`list_roles` plus the inline and managed policy documents, which the
code fetches through the paginator collaborators keyed by role name (here
supplied as data, names paired with documents). -/
structure RoleDescriptor where
  RoleName : String
  RoleArn : String
  AssumeRolePolicyDocument : PolicyDocument
  inlinePolicies : List (String × PolicyDocument)
  managedPolicies : List (String × PolicyDocument)
deriving DecidableEq, Repr

/-- `get_permisive_roles` (lines 30-44): filter the role universe by the
trust evaluator.  The list comprehension evaluates the trust check role by
role, so an exception from `get_role_permission` aborts the whole call. -/
def get_permisive_roles (roles : List RoleDescriptor) (userArn : String) :
    Except Unit (List RoleDescriptor) :=
  match roles with
  | [] => .ok []
  | r :: rest =>
    match get_role_permission r.AssumeRolePolicyDocument userArn with
    | .error e => .error e
    | .ok b =>
      match get_permisive_roles rest userArn with
      | .error e => .error e
      | .ok tl => .ok (if b then r :: tl else tl)

/-- The flag-setting loop of `check_policies` (lines 86-96): visits every
policy, ORs the verdict of the evaluator into the flag, never exits early. -/
def check_policies_loop : List (String × PolicyDocument) → Bool → Bool
  | [], flag => flag
  | (_, doc) :: rest, flag =>
    check_policies_loop rest (flag || policy_allows_assume_role doc)

/-- `check_policies` (lines 86-96), with the policy documents the fetchers
would return supplied as data. -/
def check_policies (policies : List (String × PolicyDocument)) : Bool :=
  check_policies_loop policies false

/-- The policies `check_policies` reports (the `cprint` on line 94 fires once
per granting policy, for every granting policy). -/
def check_policies_reported (policies : List (String × PolicyDocument)) : List String :=
  policies.filterMap fun p =>
    if policy_allows_assume_role p.2 then some p.1 else none

/-- The boolean value of the lines 72-73 test
`check_policies(inline...) or check_policies(managed...)`. -/
def roleGrants (r : RoleDescriptor) : Bool :=
  check_policies r.inlinePolicies || check_policies r.managedPolicies

/-- The policies the `or` on lines 72-73 actually examines: Python `or`
short-circuits, so when the inline pass succeeds the managed paginator is
never run. -/
def examined_policy_names (r : RoleDescriptor) : List String :=
  if check_policies r.inlinePolicies then r.inlinePolicies.map Prod.fst
  else r.inlinePolicies.map Prod.fst ++ r.managedPolicies.map Prod.fst

/-- `role_chaning_check` (lines 63-84), discovery path.  For each permissive
role in order: if the inline-or-managed policy check succeeds, call
`assume_user_role` (the external STS hop, modelled by `assume`; `none`
is an AssumeDenied/failure) and `return role_chain_creds` unconditionally —
whether or not the hop succeeded.  Only when no role passes the policy check
does the loop run to completion and fall through (returning `none`). -/
def role_chaning_check (assume : RoleDescriptor → Option String) :
    List RoleDescriptor → Option String
  | [] => none
  | r :: rest =>
    if roleGrants r then assume r
    else role_chaning_check assume rest

/-- The roles on which `role_chaning_check` actually calls
`assume_user_role`: the loop returns at the first role whose policy check
passes, so at most one role is ever attempted. -/
def attempted_assume_roles : List RoleDescriptor → List RoleDescriptor
  | [] => []
  | r :: rest =>
    if roleGrants r then [r]
    else attempted_assume_roles rest

/-! ## Concrete fixtures -/

/-- A permission-policy document with one `Allow` statement whose `Action`
list contains exactly `sts:AssumeRole`. -/
def grantingPolicy : PolicyDocument :=
  { Statement := some [{ Effect := some "Allow", Principal := none,
                         Action := some (.list ["sts:AssumeRole"]) }] }

/-- A trust-policy document whose single `Allow` statement trusts the
principal `u` under the `AWS` key (as a bare string). -/
def trustDocU : PolicyDocument :=
  { Statement := some [{ Effect := some "Allow",
                         Principal := some (.map [("AWS", .str "u")]),
                         Action := some (.str "sts:AssumeRole") }] }

/-- Role `A`: trusted by `u`, one granting inline policy. -/
def roleA : RoleDescriptor :=
  { RoleName := "A", RoleArn := "arn:aws:iam::1:role/A",
    AssumeRolePolicyDocument := trustDocU,
    inlinePolicies := [("pA", grantingPolicy)], managedPolicies := [] }

/-- Role `B`: trusted by `u`, one granting managed policy. -/
def roleB : RoleDescriptor :=
  { RoleName := "B", RoleArn := "arn:aws:iam::1:role/B",
    AssumeRolePolicyDocument := trustDocU,
    inlinePolicies := [], managedPolicies := [("pB", grantingPolicy)] }

/-- A role with a granting inline policy `ip` AND a granting managed policy
`mp`. -/
def roleIM : RoleDescriptor :=
  { RoleName := "IM", RoleArn := "arn:aws:iam::1:role/IM",
    AssumeRolePolicyDocument := trustDocU,
    inlinePolicies := [("ip", grantingPolicy)],
    managedPolicies := [("mp", grantingPolicy)] }

/-- An assume-role collaborator that denies the hop for role `A` and succeeds
for every other role. -/
def denyRoleA (r : RoleDescriptor) : Option String :=
  if r.RoleName = "A" then none else some "creds"

/-- One entry of a `Principal` object with a bare-string value rewritten to
the equivalent one-element list (the representation change whose invariance
the trust evaluator is claimed to have). -/
def singletonize_entry : String × StrOrList → String × StrOrList
  | (k, .str s) => (k, .list [s])
  | e => e

/-- Rewrite every bare-string principal value of a statement to the
one-element-list representation. -/
def singletonize_stmt (st : Stmt) : Stmt :=
  match st.Principal with
  | some (.map entries) =>
    { st with Principal := some (.map (entries.map singletonize_entry)) }
  | _ => st

/-- Rewrite every bare-string principal value of a document to the
one-element-list representation. -/
def singletonize_doc (doc : PolicyDocument) : PolicyDocument :=
  { Statement := doc.Statement.map (List.map singletonize_stmt) }

/-- The value the code reads from the principal of a statement under the `AWS`
key: `statement["Principal"].get("AWS", ...)` when the principal is a dict,
nothing otherwise. -/
def principal_aws_value (st : Stmt) : Option StrOrList :=
  match st.Principal with
  | some (.map entries) => entries.lookup "AWS"
  | _ => none

/-- The normalised list of ARNs the trust evaluator compares the caller
against for one statement. -/
def stmt_aws_principals (st : Stmt) : List String :=
  normalizeAws (principal_aws_value st)

/-- True when the `Principal` field of a statement holds a bare non-dict value
(the shape on which the Python attribute access raises). -/
def is_bare_principal (st : Stmt) : Bool :=
  match st.Principal with
  | some (.bare _) => true
  | _ => false

/-- A trust document whose only statement is an `Allow` with the bare-string
principal `"*"` — valid JSON that AWS itself emits, but not a dict. -/
def bareStarDoc : PolicyDocument :=
  { Statement := some [{ Effect := some "Allow", Principal := some (.bare "*"),
                         Action := none }] }

/-- A trust document with a `Deny` statement carrying a bare principal and an
`Allow` statement whose `AWS` principals do not include the caller. -/
def mixedTrustDoc : PolicyDocument :=
  { Statement := some [
      { Effect := some "Deny", Principal := some (.bare "*"), Action := none },
      { Effect := some "Allow",
        Principal := some (.map [("AWS", .list ["arn:aws:iam::1:user/other1",
                                                "arn:aws:iam::1:user/other2"])]),
        Action := none } ] }

/-- A trust document whose single `Allow` statement names principals only
under the `Service` and `Federated` keys — no `AWS` key at all. -/
def serviceTrustDoc : PolicyDocument :=
  { Statement := some [
      { Effect := some "Allow",
        Principal := some (.map [("Service", .str "ec2.amazonaws.com"),
                                 ("Federated", .list ["arn:aws:iam::1:saml-provider/x"])]),
        Action := none } ] }

/-! ## Helper lemmas -/

theorem check_policies_loop_eq (policies : List (String × PolicyDocument)) (flag : Bool) :
    check_policies_loop policies flag
      = (flag || policies.any fun p => policy_allows_assume_role p.2) := by
  induction policies generalizing flag with
  | nil => simp [check_policies_loop]
  | cons q rest ih =>
    obtain ⟨name, doc⟩ := q
    simp [check_policies_loop, ih, Bool.or_assoc]

theorem check_policies_eq_any (policies : List (String × PolicyDocument)) :
    check_policies policies = policies.any fun p => policy_allows_assume_role p.2 := by
  simp [check_policies, check_policies_loop_eq]

theorem py_in_action_iff (a : Option StrOrList) :
    py_in_action a = true ↔
      ((∃ l, a = some (.list l) ∧ "sts:AssumeRole" ∈ l) ∨
       (∃ s, a = some (.str s) ∧ containsSubstr "sts:AssumeRole" s = true)) := by
  cases a with
  | none => simp [py_in_action]
  | some v =>
    cases v with
    | str s => simp [py_in_action]
    | list l => simp [py_in_action, List.contains, List.elem_iff]

theorem mem_get_permisive_roles (roles : List RoleDescriptor) (u : String)
    (ps : List RoleDescriptor) (h : get_permisive_roles roles u = .ok ps)
    (r : RoleDescriptor) :
    r ∈ ps ↔ r ∈ roles ∧ get_role_permission r.AssumeRolePolicyDocument u = .ok true := by
  induction roles generalizing ps with
  | nil =>
    simp only [get_permisive_roles, Except.ok.injEq] at h
    subst h
    simp
  | cons x rest ih =>
    simp only [get_permisive_roles] at h
    cases hx : get_role_permission x.AssumeRolePolicyDocument u with
    | error e => rw [hx] at h; cases h
    | ok b =>
      rw [hx] at h
      cases hrest : get_permisive_roles rest u with
      | error e => rw [hrest] at h; cases h
      | ok tl =>
        rw [hrest] at h
        simp only [Except.ok.injEq] at h
        subst h
        have iht := ih tl hrest
        cases b with
        | true =>
          constructor
          · intro hr
            rcases List.mem_cons.mp hr with h1 | h2
            · subst h1; exact ⟨List.mem_cons_self _ _, hx⟩
            · have := iht.mp h2
              exact ⟨List.mem_cons_of_mem _ this.1, this.2⟩
          · rintro ⟨hmem, htrust⟩
            rcases List.mem_cons.mp hmem with h1 | h2
            · subst h1; exact List.mem_cons_self _ _
            · exact List.mem_cons_of_mem _ (iht.mpr ⟨h2, htrust⟩)
        | false =>
          simp only [if_neg] at *
          constructor
          · intro hr
            have := iht.mp hr
            exact ⟨List.mem_cons_of_mem _ this.1, this.2⟩
          · rintro ⟨hmem, htrust⟩
            rcases List.mem_cons.mp hmem with h1 | h2
            · subst h1; rw [htrust] at hx; cases hx
            · exact iht.mpr ⟨h2, htrust⟩

theorem normalizeAws_lookup_singletonize (entries : List (String × StrOrList)) (k : String) :
    normalizeAws ((entries.map singletonize_entry).lookup k)
      = normalizeAws (entries.lookup k) := by
  induction entries with
  | nil => rfl
  | cons e rest ih =>
    obtain ⟨key, v⟩ := e
    cases v with
    | str s =>
      simp only [List.map_cons, singletonize_entry, List.lookup]
      cases hk : k == key with
      | true => rfl
      | false => exact ih
    | list l =>
      simp only [List.map_cons, singletonize_entry, List.lookup]
      cases hk : k == key with
      | true => rfl
      | false => exact ih

theorem get_role_permission_go_singletonize (u : String) (stmts : List Stmt) :
    get_role_permission_go u (stmts.map singletonize_stmt)
      = get_role_permission_go u stmts := by
  induction stmts with
  | nil => rfl
  | cons st rest ih =>
    obtain ⟨eff, prin, act⟩ := st
    cases prin with
    | none =>
      cases eff with
      | none => simpa only [List.map_cons, singletonize_stmt, get_role_permission_go] using ih
      | some e => simpa only [List.map_cons, singletonize_stmt, get_role_permission_go] using ih
    | some p =>
      cases p with
      | bare s =>
        cases eff with
        | none => simpa only [List.map_cons, singletonize_stmt, get_role_permission_go] using ih
        | some e =>
          simp only [List.map_cons, singletonize_stmt, get_role_permission_go]
          by_cases he : e = "Allow"
          · simp [he]
          · simp only [if_neg he]; exact ih
      | map entries =>
        cases eff with
        | none => simpa only [List.map_cons, singletonize_stmt, get_role_permission_go] using ih
        | some e =>
          simp only [List.map_cons, singletonize_stmt, get_role_permission_go]
          by_cases he : e = "Allow"
          · subst he
            simp only [if_pos rfl, normalizeAws_lookup_singletonize]
            cases hc : (normalizeAws (entries.lookup "AWS")).contains u with
            | true => rfl
            | false => exact ih
          · simp only [if_neg he]; exact ih

theorem get_role_permission_go_ok_false (u : String) (stmts : List Stmt)
    (h : ∀ st ∈ stmts, st.Effect = some "Allow" →
         is_bare_principal st = false ∧ (stmt_aws_principals st).contains u = false) :
    get_role_permission_go u stmts = .ok false := by
  induction stmts with
  | nil => rfl
  | cons st rest ih =>
    have hrest : ∀ st ∈ rest, st.Effect = some "Allow" →
        is_bare_principal st = false ∧ (stmt_aws_principals st).contains u = false :=
      fun s hs => h s (List.mem_cons_of_mem _ hs)
    have hst := h st (List.mem_cons_self _ _)
    obtain ⟨eff, prin, act⟩ := st
    cases eff with
    | none =>
      cases prin with
      | none => exact ih hrest
      | some p => exact ih hrest
    | some e =>
      cases prin with
      | none => simp only [get_role_permission_go]; exact ih hrest
      | some p =>
        by_cases he : e = "Allow"
        · subst he
          obtain ⟨hnobare, hnomem⟩ := hst rfl
          cases p with
          | bare s => simp [is_bare_principal] at hnobare
          | map entries =>
            simp only [stmt_aws_principals, principal_aws_value] at hnomem
            simp only [get_role_permission_go, if_pos rfl, hnomem]
            exact ih hrest
        · simp only [get_role_permission_go, if_neg he]; exact ih hrest

/-- C1: discovery is claimed to return exactly the set of roles directly
chainable from the starting identity with no chainable role omitted, but the
code returns inside its loop at the first role whose policy check passes:
with roles `A` and `B` both directly chainable from `u` (both trusted and
both granting `sts:AssumeRole`), the run attempts and returns only `A`; `B`
is never attempted. -/
theorem discovery_stops_at_first_chainable_role :
    get_permisive_roles [roleA, roleB] "u" = .ok [roleA, roleB] ∧
    roleGrants roleA = true ∧ roleGrants roleB = true ∧
    role_chaning_check (fun _ => some "credsOfFirstRole") [roleA, roleB]
      = some "credsOfFirstRole" ∧
    attempted_assume_roles [roleA, roleB] = [roleA] ∧
    roleB ∉ attempted_assume_roles [roleA, roleB] :=
  ⟨rfl, by decide, by decide, rfl, by decide, by decide⟩

/-- C2: an `AssumeDenied` on one edge is claimed never to prevent sibling
edges from being explored, but the code returns the `None` of the failed hop
unconditionally: with `A` and `B` both chainable and the hop for `A` denied,
the run returns `none` and `B` is never classified or attempted. -/
theorem assume_denied_halts_traversal :
    roleGrants roleA = true ∧ roleGrants roleB = true ∧
    denyRoleA roleA = none ∧ denyRoleA roleB = some "creds" ∧
    role_chaning_check denyRoleA [roleA, roleB] = none ∧
    attempted_assume_roles [roleA, roleB] = [roleA] ∧
    roleB ∉ attempted_assume_roles [roleA, roleB] :=
  ⟨by decide, by decide, rfl, rfl, rfl, by decide, by decide⟩

/-- C3 counterexample: for a role with a granting inline policy `ip` and a
granting managed policy `mp`, the `or` on lines 72-73 short-circuits: the
managed-policy pass is skipped entirely, so `mp` is never examined, refuting
"finding a granting inline policy does not skip the managed-policy check". -/
theorem inline_grant_skips_managed_check :
    check_policies roleIM.inlinePolicies = true ∧
    check_policies roleIM.managedPolicies = true ∧
    examined_policy_names roleIM = ["ip"] ∧
    "mp" ∉ examined_policy_names roleIM := by decide

/-- C3 amended: within a single pass (`check_policies` over the inline list,
or over the managed list when it is reached) the classifier is exhaustive —
any granting policy anywhere in the list makes the check succeed and is
collected in the report, with no early stop at the first match. -/
theorem check_policies_exhaustive_within_pass
    (policies : List (String × PolicyDocument)) (p : String × PolicyDocument)
    (hp : p ∈ policies) (hallow : policy_allows_assume_role p.2 = true) :
    check_policies policies = true ∧ p.1 ∈ check_policies_reported policies := by
  constructor
  · rw [check_policies_eq_any]
    exact List.any_eq_true.mpr ⟨p, hp, hallow⟩
  · rw [check_policies_reported]
    exact List.mem_filterMap.mpr ⟨p, hp, by rw [if_pos hallow]⟩

/-- Witness for the amended C3 theorem: the second of two granting policies is
still detected and reported (no stop at the first match). -/
theorem check_policies_exhaustive_within_pass_witness :
    check_policies [("q1", grantingPolicy), ("q2", grantingPolicy)] = true ∧
    "q2" ∈ check_policies_reported [("q1", grantingPolicy), ("q2", grantingPolicy)] :=
  check_policies_exhaustive_within_pass
    [("q1", grantingPolicy), ("q2", grantingPolicy)] ("q2", grantingPolicy)
    (by decide) (by decide)

/-- C4 counterexample: a document whose single `Allow` statement carries the
full-wildcard action — `["*"]` as the action list, or the bare string `"*"` —
is claimed to satisfy the evaluator, but `policy_allows_assume_role` rejects
both: `"sts:AssumeRole" in ["*"]` and `"sts:AssumeRole" in "*"` are both
false in Python. -/
theorem full_wildcard_action_not_matched :
    policy_allows_assume_role
      { Statement := some [{ Effect := some "Allow", Principal := none,
                             Action := some (.list ["*"]) }] } = false ∧
    policy_allows_assume_role
      { Statement := some [{ Effect := some "Allow", Principal := none,
                             Action := some (.str "*") }] } = false := by decide

/-- C4 amended: the evaluator returns true exactly when some statement has
`Effect = Allow` and either its `Action` list contains the exact literal
`sts:AssumeRole`, or its `Action` is a string containing `sts:AssumeRole` as
a substring.  No wildcard expansion of any kind is performed — in particular
the full wildcard `*` is NOT a match. -/
theorem policy_allows_assume_role_iff (doc : PolicyDocument) :
    policy_allows_assume_role doc = true ↔
      ∃ st ∈ doc.Statement.getD [], st.Effect = some "Allow" ∧
        ((∃ l, st.Action = some (.list l) ∧ "sts:AssumeRole" ∈ l) ∨
         (∃ s, st.Action = some (.str s) ∧ containsSubstr "sts:AssumeRole" s = true)) := by
  simp only [policy_allows_assume_role, List.any_eq_true, Bool.and_eq_true, beq_iff_eq,
    py_in_action_iff]

/-- C5: a role is classified chainable — it survives the trust filter of
`get_permisive_roles` AND its inline-or-managed policy check succeeds — iff
the trust evaluator accepts the current identity and at least one of its
policies grants the assume-role action; falsifying either side of the
conjunction makes the role non-chainable. -/
theorem chainable_iff_trust_and_grant (roles : List RoleDescriptor) (u : String)
    (ps : List RoleDescriptor) (h : get_permisive_roles roles u = .ok ps)
    (r : RoleDescriptor) (hr : r ∈ roles) :
    (r ∈ ps ∧ roleGrants r = true) ↔
      (get_role_permission r.AssumeRolePolicyDocument u = .ok true ∧ roleGrants r = true) := by
  rw [mem_get_permisive_roles roles u ps h r]
  constructor
  · rintro ⟨⟨_, ht⟩, hg⟩; exact ⟨ht, hg⟩
  · rintro ⟨ht, hg⟩; exact ⟨⟨hr, ht⟩, hg⟩

/-- Witness for C5: role `A` in the one-role universe, seen from identity
`u`. -/
theorem chainable_iff_trust_and_grant_witness :
    (roleA ∈ [roleA] ∧ roleGrants roleA = true) ↔
      (get_role_permission roleA.AssumeRolePolicyDocument "u" = .ok true ∧
       roleGrants roleA = true) :=
  chainable_iff_trust_and_grant [roleA] "u" [roleA] rfl roleA (by decide)

/-- C6: the trust evaluator treats a bare-string principal and the
one-element-list principal identically: rewriting every bare-string `AWS`
value of a trust document to the corresponding one-element list leaves the
result of the evaluator unchanged, for every document and every identity. -/
theorem principal_string_list_equiv (doc : PolicyDocument) (u : String) :
    get_role_permission (singletonize_doc doc) u = get_role_permission doc u := by
  cases hS : doc.Statement with
  | none => simp [get_role_permission, singletonize_doc, hS]
  | some l =>
    simp [get_role_permission, singletonize_doc, hS, get_role_permission_go_singletonize]

/-- C7: for every policy document with no `Allow` statement whose action
passes the assume-role test — including the empty document and a document
with no `Statement` field — the permission evaluator returns false. -/
theorem grants_assume_role_false_of_no_allow (doc : PolicyDocument)
    (h : ∀ st ∈ doc.Statement.getD [],
         ¬(st.Effect = some "Allow" ∧ py_in_action st.Action = true)) :
    policy_allows_assume_role doc = false := by
  rw [policy_allows_assume_role, List.any_eq_false]
  intro st hst
  cases hval : (st.Effect == some "Allow" && py_in_action st.Action) with
  | false => exact Bool.false_ne_true
  | true => exact fun _ => absurd (by simpa using hval) (h st hst)

/-- Witness for C7: the document with no `Statement` field. -/
theorem grants_assume_role_false_of_no_allow_witness :
    policy_allows_assume_role { Statement := none } = false :=
  grants_assume_role_false_of_no_allow { Statement := none } (by simp)

/-- C8 counterexample: on a trust document whose `Allow` statement carries
the bare-string principal `"*"` — parseable JSON that real trust policies
use — the evaluator does not return false: the attribute access
`statement["Principal"].get("AWS", [])` raises, modelled here as `.error ()`,
so the function is not total on parseable input. -/
theorem bare_principal_raises :
    get_role_permission bareStarDoc "arn:aws:iam::1:user/me" = .error () := rfl

/-- C8 amended: for every parseable trust document whose `Allow` statements
all carry a dict-shaped (or absent) `Principal`, the evaluator is total and
returns false when no `Allow` statement names the identity under the `AWS`
key; an `Allow` statement with a bare non-dict `Principal` (e.g. the string
`"*"`) instead raises. -/
theorem trust_eval_false_of_no_match (doc : PolicyDocument) (u : String)
    (hbare : ∀ st ∈ doc.Statement.getD [],
        st.Effect = some "Allow" → is_bare_principal st = false)
    (hmem : ∀ st ∈ doc.Statement.getD [], u ∉ stmt_aws_principals st) :
    get_role_permission doc u = .ok false := by
  apply get_role_permission_go_ok_false
  intro st hst hE
  exact ⟨hbare st hst hE, by simpa using hmem st hst⟩

/-- Witness for the amended C8 theorem: a document with a `Deny` statement
(bare principal allowed there — the code never dereferences it) and an
`Allow` statement listing other identities. -/
theorem trust_eval_false_of_no_match_witness :
    get_role_permission mixedTrustDoc "arn:aws:iam::1:user/me" = .ok false :=
  trust_eval_false_of_no_match mixedTrustDoc "arn:aws:iam::1:user/me"
    (by decide) (by decide)

/-- C9: when the `Action` field of a statement is a single string, the evaluator
performs the Python substring test: any `Action` string containing
`sts:AssumeRole` as a contiguous substring makes the document pass. -/
theorem string_action_substring_test (s : String)
    (h : containsSubstr "sts:AssumeRole" s = true) :
    policy_allows_assume_role
      { Statement := some [{ Effect := some "Allow", Principal := none,
                             Action := some (.str s) }] } = true := by
  simp [policy_allows_assume_role, py_in_action, h]

/-- Witness for C9: `sts:AssumeRoleWithSAML` — not the exact literal — is
accepted. -/
theorem string_action_substring_test_witness :
    containsSubstr "sts:AssumeRole" "sts:AssumeRoleWithSAML" = true ∧
    "sts:AssumeRoleWithSAML" ≠ "sts:AssumeRole" ∧
    policy_allows_assume_role
      { Statement := some [{ Effect := some "Allow", Principal := none,
                             Action := some (.str "sts:AssumeRoleWithSAML") }] } = true :=
  ⟨by decide, by decide, string_action_substring_test "sts:AssumeRoleWithSAML" (by decide)⟩

/-- C10: the trust evaluator reads only the `AWS` key of a dict-shaped
`Principal`: if the principal dict of every statement has no `AWS` entry (e.g.
only `Service` or `Federated` keys), the evaluator returns false for every
identity, whatever identifiers those other keys list. -/
theorem trust_eval_ignores_non_aws_keys (doc : PolicyDocument) (u : String)
    (h : ∀ st ∈ doc.Statement.getD [],
        principal_aws_value st = none ∧ is_bare_principal st = false) :
    get_role_permission doc u = .ok false := by
  apply get_role_permission_go_ok_false
  intro st hst _
  obtain ⟨hv, hb⟩ := h st hst
  refine ⟨hb, ?_⟩
  simp [stmt_aws_principals, hv, normalizeAws]

/-- Witness for C10: a trust document naming `ec2.amazonaws.com` under
`Service` and a SAML provider under `Federated` rejects even the identity
`ec2.amazonaws.com` itself. -/
theorem trust_eval_ignores_non_aws_keys_witness :
    get_role_permission serviceTrustDoc "ec2.amazonaws.com" = .ok false :=
  trust_eval_ignores_non_aws_keys serviceTrustDoc "ec2.amazonaws.com" (by decide)
